import Mathlib

/-!
# Subscription service: dates, write path, read/delete path, price aggregation

A shallow embedding of `src/internal/structs.go` and `src/internal/handlers.go`.

* Go's `time.Time` is represented by its civil fields in UTC (every timestamp the
  handlers build comes from `time.Parse` without a zone, hence UTC).  For normalised
  fields the chronological order of instants is the lexicographic order of the fields.
* `time.Parse`, `Time.Format`, `Time.AddDate` and `strconv.Atoi` are library functions;
  they are modelled after the Go standard library, `Parse` and `Format` for the single
  layout `"01-2006"` that the repository uses.
* Go strings are modelled as Lean strings read character by character.  The parser only
  ever accepts the ASCII digits and `-`, so reading bytes or characters accepts the same
  strings.
* The database behind gorm is modelled as the list of rows of the `subscriptions`
  table, soft-deleted rows included.  The handlers do no arithmetic of their own: the sum
  of prices is SQL's and exact, and is then scanned into a 64-bit Go `int`.
-/

namespace Subscriptions

/-! ## time.Time -/

/-- A `time.Time` in UTC, by civil fields. -/
structure Time where
  year : Int
  month : Nat
  day : Nat
  hour : Nat
  min : Nat
  sec : Nat
  nsec : Nat
deriving DecidableEq, Repr

/-- The zero value `time.Time{}`: January 1, year 1, 00:00:00 UTC. -/
def Time.zero : Time := ⟨1, 1, 1, 0, 0, 0, 0⟩

/-- Go `Time.IsZero`. -/
def Time.IsZero (t : Time) : Bool := decide (t = Time.zero)

/-- Lexicographic "not after" on two equally long field lists. -/
def lexLe : List Int → List Int → Bool
  | [], _ => true
  | _ :: _, [] => false
  | a :: as, b :: bs => if a < b then true else if b < a then false else lexLe as bs

/-- The fields of a timestamp, most significant first. -/
def Time.fields (t : Time) : List Int :=
  [t.year, t.month, t.day, t.hour, t.min, t.sec, t.nsec]

/-- Chronological order `t ≤ u` (what SQL compares in `BETWEEN`). -/
def Time.le (t u : Time) : Bool := lexLe t.fields u.fields

/-- Go `isLeap`. -/
def isLeap (year : Int) : Bool :=
  year % 4 == 0 && (year % 100 != 0 || year % 400 == 0)

/-- Go `daysIn`: the number of days of a month (1..12) of a year. -/
def daysIn (month : Nat) (year : Int) : Nat :=
  if month = 2 then (if isLeap year then 29 else 28)
  else if month = 4 ∨ month = 6 ∨ month = 9 ∨ month = 11 then 30
  else 31

/-- Go `norm(hi, lo, base)`: carries `lo` into the range `[0, base)`. -/
def norm (hi lo base : Int) : Int × Int :=
  let (hi, lo) :=
    if lo < 0 then
      let n := (-lo - 1) / base + 1
      (hi - n, lo + n * base)
    else (hi, lo)
  if lo ≥ base then
    let n := lo / base
    (hi + n, lo - n * base)
  else (hi, lo)

/-- Carries a day number outside `1..daysIn` into the neighbouring months, one month per
step.  Every step moves the day number by at least 28, so `|day| + 1` steps are ample. -/
def rollDay : Nat → Int → Nat → Int → Int × Nat × Nat
  | 0, y, m, d => (y, m, d.toNat)
  | fuel + 1, y, m, d =>
    if d < 1 then
      let y1 := if m = 1 then y - 1 else y
      let m1 := if m = 1 then 12 else m - 1
      rollDay fuel y1 m1 (d + daysIn m1 y1)
    else if d > daysIn m y then
      let y1 := if m = 12 then y + 1 else y
      let m1 := if m = 12 then 1 else m + 1
      rollDay fuel y1 m1 (d - daysIn m y)
    else (y, m, d.toNat)

/-- Go `time.Date(year, month, day, hour, min, sec, nsec, time.UTC)` for clock fields
already in range: month and day may be outside their usual ranges and are normalised
(October 32 becomes November 1). -/
def Date (year month day : Int) (hour min sec nsec : Nat) : Time :=
  let (y, m0) := norm year (month - 1) 12
  let (y, m, d) := rollDay (day.natAbs + 1) y (m0.toNat + 1) day
  ⟨y, m, d, hour, min, sec, nsec⟩

/-- Go `Time.AddDate(years, months, days)`:
`Date(year+years, month+months, day+days, hour, min, sec, nsec, loc)`. -/
def Time.AddDate (t : Time) (years months days : Int) : Time :=
  Date (t.year + years) (t.month + months) (t.day + days) t.hour t.min t.sec t.nsec

/-! ## time.Parse and Time.Format for the layout "01-2006" -/

/-- Why `time.Parse` failed. -/
inductive ParseError where
  | bad
  | monthOutOfRange
  | extraText
deriving DecidableEq, Repr

instance : DecidableEq (Except ParseError Time) := fun a b =>
  match a, b with
  | .ok x, .ok y =>
    if h : x = y then isTrue (by rw [h]) else isFalse (by intro e; cases e; exact h rfl)
  | .error x, .error y =>
    if h : x = y then isTrue (by rw [h]) else isFalse (by intro e; cases e; exact h rfl)
  | .ok _, .error _ => isFalse (by intro e; cases e)
  | .error _, .ok _ => isFalse (by intro e; cases e)

/-- Go `isDigit` on one character: `'0' <= c && c <= '9'`. -/
def isDigit (c : Char) : Bool := 48 ≤ c.toNat && c.toNat ≤ 57

/-- The value `c - '0'` of a digit. -/
def digitVal (c : Char) : Nat := c.toNat - 48

/-- Go `getnum(s, fixed)`: a one or two digit number at the head of `s`; with `fixed`
two digits are required. -/
def getnum (s : List Char) (fixed : Bool) : Option (Nat × List Char) :=
  match s with
  | [] => none
  | [a] => if isDigit a then (if fixed then none else some (digitVal a, [])) else none
  | a :: b :: rest =>
    if isDigit a then
      if isDigit b then some (digitVal a * 10 + digitVal b, rest)
      else if fixed then none else some (digitVal a, b :: rest)
    else none

/-- Go `skip(value, "-")`: the literal text of the layout between the two chunks. -/
def skipDash (value : List Char) : Option (List Char) :=
  match value with
  | '-' :: rest => some rest
  | _ => none

/-- The `stdLongYear` case of `Parse`: at least four characters, the first a digit, and
`atoi` of the first four must consume all of them (so all four are digits). -/
def longYear (value : List Char) : Option (Nat × List Char) :=
  match value with
  | a :: b :: c :: d :: rest =>
    if isDigit a && isDigit b && isDigit c && isDigit d then
      some (digitVal a * 1000 + digitVal b * 100 + digitVal c * 10 + digitVal d, rest)
    else none
  | _ => none

/-- Go `time.Parse("01-2006", value)`: chunk `01` (zero-padded month), the text `-`,
chunk `2006` (four-digit year), then nothing; day and clock take their defaults. -/
def Parse (value : String) : Except ParseError Time :=
  match getnum value.toList true with
  | none => .error .bad
  | some (month, v1) =>
    if month ≤ 0 ∨ 12 < month then .error .monthOutOfRange
    else
      match skipDash v1 with
      | none => .error .bad
      | some v2 =>
        match longYear v2 with
        | none => .error .bad
        | some (year, v3) =>
          if v3.length > 0 then .error .extraText
          else .ok (Date year month 1 0 0 0 0)

/-- The character of a decimal digit. -/
def digitChar (n : Nat) : Char := Char.ofNat (48 + n)

/-- Go `appendInt(b, x, width)`: decimal `x`, zero-padded to `width`, a leading `-` for
negative `x`; the two and four digit fields take the library's short cuts. -/
def appendInt (x : Int) (width : Nat) : List Char :=
  let u := x.natAbs
  let sign := if x < 0 then ['-'] else []
  if width = 2 ∧ u < 100 then
    sign ++ [digitChar (u / 10), digitChar (u % 10)]
  else if width = 4 ∧ u < 10000 then
    sign ++ [digitChar (u / 1000), digitChar (u / 100 % 10), digitChar (u / 10 % 10),
      digitChar (u % 10)]
  else
    let ds := Nat.toDigits 10 u
    sign ++ List.replicate (width - ds.length) '0' ++ ds

/-- Go `t.Format("01-2006")`. -/
def Time.Format (t : Time) : String :=
  String.mk (appendInt t.month 2 ++ ['-'] ++ appendInt t.year 4)

/-- The pattern `v, _ = f()`: the error is dropped; on every error path `time.Parse`
returns the zero `Time`, which is what gets assigned. -/
def dropErr (r : Except ParseError Time) : Time :=
  match r with
  | .ok t => t
  | .error _ => Time.zero

/-- Go `strconv.Atoi`: an optional sign, then one or more decimal digits and nothing
else; the value must fit a 64-bit `int`. -/
def Atoi (s : String) : Option Int :=
  let cs := s.toList
  let neg := cs.head? = some '-'
  let ds := if cs.head? = some '-' ∨ cs.head? = some '+' then cs.drop 1 else cs
  if ds.isEmpty || !ds.all isDigit then none
  else
    let n : Nat := ds.foldl (fun acc c => acc * 10 + digitVal c) 0
    let v : Int := if neg then -(n : Int) else n
    if v < -(2 ^ 63 : Int) ∨ (2 ^ 63 : Int) ≤ v then none else some v

/-! ## structs.go -/

/-- The `Subscription` model.  The embedded `gorm.Model` contributes `UpdatedAt`; its
`ID`, `CreatedAt` and `DeletedAt` are shadowed by the fields declared in the struct
itself.  `DeletedAt` is `none` for a live row (SQL `NULL`). -/
structure Subscription where
  ID : Nat
  ServiceName : String
  Price : Int
  User_ID : String
  StartDate : String
  EndTime : String
  Ended : Time
  CreatedAt : Time
  DeletedAt : Option Time
  UpdatedAt : Time
deriving DecidableEq, Repr

/-- The zero value `Subscription{}`. -/
def Subscription.zeroValue : Subscription :=
  ⟨0, "", 0, "", "", "", Time.zero, Time.zero, none, Time.zero⟩

/-- Source: `func (s *Subscription) GetStartDate() (time.Time, error)`. -/
def Subscription.GetStartDate (s : Subscription) : Except ParseError Time :=
  Parse s.StartDate

/-- Source: `func (s *Subscription) GetEndDate() (time.Time, error)`; it parses
`StartDate`, as the source does. -/
def Subscription.GetEndDate (s : Subscription) : Except ParseError Time :=
  Parse s.StartDate

/-- The `UpdateRequest` model. -/
structure UpdateRequest where
  ServiceName : String
  Price : Int
  UserID : String
  StartDate : String
  EndTime : String
  Ended : Time
  CreatedAt : Time
deriving DecidableEq, Repr

/-- Source: `func (s *UpdateRequest) GetStartDate() (time.Time, error)`. -/
def UpdateRequest.GetStartDate (s : UpdateRequest) : Except ParseError Time :=
  Parse s.StartDate

/-- Source: `func (s *UpdateRequest) GetEndDate() (time.Time, error)`. -/
def UpdateRequest.GetEndDate (s : UpdateRequest) : Except ParseError Time :=
  Parse s.EndTime

/-- The `SubscriptionSumRequest` model. -/
structure SubscriptionSumRequest where
  UserID : String
  ServiceName : String
  StartDate : String
  EndDate : String
  BeginDate : Time
  EndedDate : Time
deriving DecidableEq, Repr

/-- Source: `func (s *SubscriptionSumRequest) GetStartDate() (time.Time, error)`. -/
def SubscriptionSumRequest.GetStartDate (s : SubscriptionSumRequest) :
    Except ParseError Time :=
  Parse s.StartDate

/-- Source: `func (s *SubscriptionSumRequest) GetEndDate() (time.Time, error)`. -/
def SubscriptionSumRequest.GetEndDate (s : SubscriptionSumRequest) :
    Except ParseError Time :=
  Parse s.EndDate

/-! ## The storage collaborator (gorm over the `subscriptions` table)

Rows are kept in a list.  Connection failures are outside the model: an operation fails
only for a reason the source itself names (the `check:price > 0` tag, the primary key,
`First` finding no row, a sum that does not fit `Total int`).  Column types (`type:uuid`) are the database's concern and are
not modelled. -/

/-- The rows of the table, soft-deleted ones included. -/
abbrev Table := List Subscription

/-- Errors a gorm call reports in `result.Error`. -/
inductive DBError where
  | ErrRecordNotFound
  | checkViolation
  | duplicateKey
  | valueOutOfRange
deriving DecidableEq, Repr

/-- The two fields of a gorm result that the handlers read. -/
structure Result where
  Error : Option DBError
  RowsAffected : Nat
deriving DecidableEq, Repr

/-- One `Where(...)` of the handlers (or the primary-key condition of `Delete`). -/
inductive Cond where
  | idEq (id : Int)
  | userIdEq (v : String)
  | serviceNameEq (v : String)
  | createdBetweenNotDeleted (a b : Time)
deriving DecidableEq, Repr

/-- Whether a row satisfies a condition:
`id = ?`, `user_id = ?`, `service_name = ?`,
`created_at BETWEEN ? AND ? AND deleted_at IS NULL`. -/
def Cond.holds (c : Cond) (r : Subscription) : Bool :=
  match c with
  | .idEq id => decide ((r.ID : Int) = id)
  | .userIdEq v => decide (r.User_ID = v)
  | .serviceNameEq v => decide (r.ServiceName = v)
  | .createdBetweenNotDeleted a b =>
    Time.le a r.CreatedAt && Time.le r.CreatedAt b && r.DeletedAt.isNone

/-- The rows a statement on the model addresses: all conditions hold, and gorm adds
`deleted_at IS NULL` because the model has a `gorm.DeletedAt` field. -/
def selected (conds : List Cond) (r : Subscription) : Bool :=
  conds.all (fun c => c.holds r) && r.DeletedAt.isNone

/-- The columns `UpdateSubscription` writes. -/
structure UpdateFields where
  service_name : String
  price : Int
  user_id : String
  start_date : String
  end_time : String
  created_at : Time
  ended : Time
deriving DecidableEq, Repr

/-- The id the sequence hands out: one past the largest id in the table. -/
def nextID (t : Table) : Nat := (t.map (fun r => r.ID)).foldl max 0 + 1

/-- Gorm `db.Create(&sub)`: the insert is rejected by `check:price > 0` or by the primary
key; an id of zero is assigned by the database; zero `CreatedAt` and `UpdatedAt` are
filled with the current time. -/
def dbCreate (now : Time) (t : Table) (sub : Subscription) : Result × Table :=
  if sub.Price ≤ 0 then (⟨some .checkViolation, 0⟩, t)
  else
    let id := if sub.ID = 0 then nextID t else sub.ID
    if t.any (fun r => r.ID == id) then (⟨some .duplicateKey, 0⟩, t)
    else
      let row := { sub with
        ID := id
        CreatedAt := if sub.CreatedAt.IsZero then now else sub.CreatedAt
        UpdatedAt := if sub.UpdatedAt.IsZero then now else sub.UpdatedAt }
      (⟨none, 1⟩, t ++ [row])

/-- Gorm `db.Where(conds).First(&sub)`: the first matching live row; when there is none
the result carries `ErrRecordNotFound` and `sub` keeps its zero value. -/
def dbFirst (t : Table) (conds : List Cond) : Result × Subscription :=
  match t.find? (selected conds) with
  | some r => (⟨none, 1⟩, r)
  | none => (⟨some .ErrRecordNotFound, 0⟩, Subscription.zeroValue)

/-- Gorm `db.Model(&Subscription{}).Where(conds).Updates(map)`: sets the given columns
(and `updated_at`) on every matching live row; `RowsAffected` counts them. -/
def dbUpdates (now : Time) (t : Table) (conds : List Cond) (f : UpdateFields) :
    Result × Table :=
  if f.price ≤ 0 then (⟨some .checkViolation, 0⟩, t)
  else
    (⟨none, (t.filter (selected conds)).length⟩,
      t.map (fun r =>
        if selected conds r then
          { r with
            ServiceName := f.service_name
            Price := f.price
            User_ID := f.user_id
            StartDate := f.start_date
            EndTime := f.end_time
            CreatedAt := f.created_at
            Ended := f.ended
            UpdatedAt := now }
        else r))

/-- Gorm `db.Delete(&Subscription{}, id)` on a model with `gorm.DeletedAt`: a soft
delete, `UPDATE ... SET deleted_at = now WHERE id = ? AND deleted_at IS NULL`. -/
def dbDelete (now : Time) (t : Table) (id : Int) : Result × Table :=
  (⟨none, (t.filter (selected [.idEq id])).length⟩,
    t.map (fun r => if selected [.idEq id] r then { r with DeletedAt := some now } else r))

/-- Gorm `Select("COALESCE(SUM(price), 0) as total") ... Scan(&result)` with
`result.Total int`: the database sums `price` over the matching live rows exactly (zero when
there are none); `Scan` stores the sum in a 64-bit Go `int` and reports an error, leaving
`Total` at zero, when it does not fit. -/
def dbScanTotal (t : Table) (conds : List Cond) : Result × Int :=
  let sum := ((t.filter (selected conds)).map (fun r => r.Price)).sum
  if sum < -(2 ^ 63 : Int) ∨ (2 ^ 63 : Int) ≤ sum then (⟨some .valueOutOfRange, 0⟩, 0)
  else (⟨none, 1⟩, sum)

/-! ## handlers.go

A handler is a function of the bound request, the table and the database clock.  Its
outcome is the response sent, the storage calls made in order, and the table afterwards.
`c.Bind` is the transport's: the handler receives either the bound struct or the bind
error's text. -/

/-- The JSON bodies the handlers send. -/
inductive Body where
  | error (msg : String)
  | status (msg : String)
  | total (total : Int) (currency period user_id service : String)
deriving DecidableEq, Repr

/-- What the handler does to the connection.  `Fatal` is `log.Fatal`: the process exits
and no response is sent. -/
inductive Response where
  | JSON (code : Nat) (body : Body)
  | Redirect (code : Nat) (url : String)
  | Render (code : Nat) (name : String) (data : Subscription)
  | NoContent (code : Nat)
  | Fatal
deriving DecidableEq, Repr

/-- A call on the storage collaborator, with its arguments. -/
inductive Call where
  | Create (sub : Subscription)
  | First (conds : List Cond)
  | Updates (conds : List Cond) (fields : UpdateFields)
  | Delete (id : Int)
  | ScanTotal (conds : List Cond)
deriving DecidableEq, Repr

/-- The outcome of handling one request. -/
structure Outcome where
  response : Response
  calls : List Call
  table : Table
deriving DecidableEq, Repr

/-- The record `CreateSubscription` builds from the bound struct (handlers.go 60-63):
`CreatedAt` and `Ended` from the start date with the parse error dropped, `Ended`
advanced by a year, `EndTime` its `01-2006` rendering. -/
def derivedRecord (s : Subscription) : Subscription :=
  let s := { s with CreatedAt := dropErr s.GetStartDate }
  let s := { s with Ended := dropErr s.GetEndDate }
  let s := { s with Ended := s.Ended.AddDate 1 0 0 }
  { s with EndTime := s.Ended.Format }

/-- Source: `func CreateSubscription(c echo.Context) error`. -/
def CreateSubscription (now : Time) (db : Table) (bind : Except String Subscription) :
    Outcome :=
  match bind with
  | .error _ => ⟨.JSON 400 (.error "Invalid request"), [], db⟩
  | .ok s =>
    let sub := derivedRecord s
    let (result, db1) := dbCreate now db sub
    if result.Error.isSome then ⟨.Fatal, [.Create sub], db1⟩
    else ⟨.Redirect 302 "/", [.Create sub], db1⟩

/-- Source: `func ReadSubscription(c echo.Context) error`. -/
def ReadSubscription (db : Table) (id : String) : Outcome :=
  match Atoi id with
  | none => ⟨.JSON 400 (.error "Неверный ID подписки"), [], db⟩
  | some ID =>
    let (result, sub) := dbFirst db [.idEq ID]
    if result.Error.isSome then
      ⟨.JSON 500 (.error "Ошибка базы данных"), [.First [.idEq ID]], db⟩
    else if result.RowsAffected = 0 then
      ⟨.JSON 404 (.error "Подписка не найдена"), [.First [.idEq ID]], db⟩
    else ⟨.Render 200 "subscription" sub, [.First [.idEq ID]], db⟩

/-- The column map `UpdateSubscription` hands to `Updates` (handlers.go 149-161):
`created_at` and `ended` are both the parsed start date, `end_time` is the request's. -/
def updateFields (req : UpdateRequest) : UpdateFields :=
  let req := { req with CreatedAt := dropErr req.GetStartDate }
  let req := { req with Ended := dropErr req.GetStartDate }
  { service_name := req.ServiceName
    price := req.Price
    user_id := req.UserID
    start_date := req.StartDate
    end_time := req.EndTime
    created_at := req.CreatedAt
    ended := req.Ended }

/-- Source: `func UpdateSubscription(c echo.Context) error`. -/
def UpdateSubscription (now : Time) (db : Table) (id : String)
    (bind : Except String UpdateRequest) : Outcome :=
  match bind with
  | .error err => ⟨.JSON 400 (.error ("Неверный формат данных: " ++ err)), [], db⟩
  | .ok req =>
    if req.Price ≤ 0 then ⟨.JSON 400 (.error "Цена должна быть положительной"), [], db⟩
    else
      match Atoi id with
      | none => ⟨.JSON 400 (.error "Неверный ID подписки"), [], db⟩
      | some subId =>
        let fields := updateFields req
        let (result, db1) := dbUpdates now db [.idEq subId] fields
        if result.Error.isSome then
          ⟨.JSON 500 (.error "Ошибка базы данных"), [.Updates [.idEq subId] fields], db1⟩
        else if result.RowsAffected = 0 then
          ⟨.JSON 404 (.error "Подписка не найдена"), [.Updates [.idEq subId] fields], db1⟩
        else ⟨.JSON 200 (.status "success"), [.Updates [.idEq subId] fields], db1⟩

/-- Source: `func DeleteSubscription(c echo.Context) error`. -/
def DeleteSubscription (now : Time) (db : Table) (idParam : String) : Outcome :=
  match Atoi idParam with
  | none => ⟨.JSON 400 (.error "Invalid ID"), [], db⟩
  | some id =>
    let (result, db1) := dbDelete now db id
    if result.Error.isSome then ⟨.JSON 500 (.error "Delete failed"), [.Delete id], db1⟩
    else if result.RowsAffected = 0 then
      ⟨.JSON 404 (.error "Subscription not found"), [.Delete id], db1⟩
    else ⟨.NoContent 204, [.Delete id], db1⟩

/-- The `Where` chain `CalculateSubscriptionsSum` builds (handlers.go 263-274). -/
def sumConds (req : SubscriptionSumRequest) : List Cond :=
  let req := { req with BeginDate := dropErr req.GetStartDate }
  let req := { req with EndedDate := dropErr req.GetEndDate }
  if req.UserID ≠ "" ∧ req.ServiceName ≠ "" then
    [.userIdEq req.UserID, .createdBetweenNotDeleted req.BeginDate req.EndedDate,
      .serviceNameEq req.ServiceName]
  else if req.ServiceName ≠ "" then
    [.serviceNameEq req.ServiceName, .createdBetweenNotDeleted req.BeginDate req.EndedDate]
  else if req.UserID ≠ "" then
    [.userIdEq req.UserID, .createdBetweenNotDeleted req.BeginDate req.EndedDate]
  else
    [.createdBetweenNotDeleted req.BeginDate req.EndedDate]

/-- Source: `func CalculateSubscriptionsSum(c echo.Context) error`. -/
def CalculateSubscriptionsSum (db : Table) (bind : Except String SubscriptionSumRequest) :
    Outcome :=
  match bind with
  | .error _ => ⟨.JSON 400 (.error "Неверные параметры запроса"), [], db⟩
  | .ok req =>
    if req.StartDate = "" ∨ req.EndDate = "" then
      ⟨.JSON 400 (.error "Необходимо указать период (start_date и end_date)"), [], db⟩
    else
      let conds := sumConds req
      let (result, total) := dbScanTotal db conds
      if result.Error.isSome then
        ⟨.JSON 500 (.error "Ошибка при расчете суммы"), [.ScanTotal conds], db⟩
      else
        ⟨.JSON 200 (.total total "RUB" (req.StartDate ++ " - " ++ req.EndDate) req.UserID
          req.ServiceName), [.ScanTotal conds], db⟩


/-! ## The specification's vocabulary -/

/-- The first instant of a month: day 1, 00:00:00, UTC. -/
def firstInstant (year : Int) (month : Nat) : Time := ⟨year, month, 1, 0, 0, 0, 0⟩

/-- The number a decimal digit character stands for. -/
def charDigit (c : Char) : Nat := c.toNat - '0'.toNat

/-- The spec's `MM-YYYY`: exactly two digits forming a month 01-12, a dash, exactly four
digits of year, nothing else. -/
def validMonthYear (s : String) : Bool :=
  match s.toList with
  | [m1, m2, dash, y1, y2, y3, y4] =>
    m1.isDigit && m2.isDigit && dash == '-' &&
      y1.isDigit && y2.isDigit && y3.isDigit && y4.isDigit &&
      decide (1 ≤ charDigit m1 * 10 + charDigit m2) &&
      decide (charDigit m1 * 10 + charDigit m2 ≤ 12)
  | _ => false

/-- The month an `MM-YYYY` string names. -/
def monthOf (s : String) : Nat :=
  match s.toList with
  | m1 :: m2 :: _ => charDigit m1 * 10 + charDigit m2
  | _ => 0

/-- The year an `MM-YYYY` string names. -/
def yearOf (s : String) : Nat :=
  match s.toList with
  | _ :: _ :: _ :: y1 :: y2 :: y3 :: y4 :: _ =>
    charDigit y1 * 1000 + charDigit y2 * 100 + charDigit y3 * 10 + charDigit y4
  | _ => 0

/-- The instant `t` is not after the instant `u`: the earlier year, or in the same year the
earlier month, and so on down to the nanosecond. -/
def notAfter (t u : Time) : Prop :=
  t.year < u.year ∨ (t.year = u.year ∧
    (t.month < u.month ∨ (t.month = u.month ∧
      (t.day < u.day ∨ (t.day = u.day ∧
        (t.hour < u.hour ∨ (t.hour = u.hour ∧
          (t.min < u.min ∨ (t.min = u.min ∧
            (t.sec < u.sec ∨ (t.sec = u.sec ∧ t.nsec ≤ u.nsec)))))))))))

instance (t u : Time) : Decidable (notAfter t u) := by
  unfold notAfter
  infer_instance

/-- A total fits the 64-bit `int` the handler reports it in. -/
def fitsInt64 (n : Int) : Prop := -(2 ^ 63 : Int) ≤ n ∧ n < (2 ^ 63 : Int)

instance (n : Int) : Decidable (fitsInt64 n) := by
  unfold fitsInt64
  infer_instance

/-- The spec's selection for the sum: not soft-deleted, `createdAt` in the inclusive range
from `b` to `e`, and matching each filter that is given. -/
def inSelection (userId serviceName : String) (b e : Time) (r : Subscription) : Bool :=
  r.DeletedAt.isNone && (decide (notAfter b r.CreatedAt) && decide (notAfter r.CreatedAt e)) &&
    (decide (userId = "") || decide (r.User_ID = userId)) &&
    (decide (serviceName = "") || decide (r.ServiceName = serviceName))

/-- The spec's total. -/
def selectedTotal (db : Table) (userId serviceName : String) (b e : Time) : Int :=
  ((db.filter (inSelection userId serviceName b e)).map (fun r => r.Price)).sum

/-- Decimal rendering of `n`, zero-padded on the left to at least `width` characters. -/
def zeroPadded (width n : Nat) : List Char :=
  List.replicate (width - (Nat.repr n).length) '0' ++ (Nat.repr n).toList

/-- The `MM-YYYY` rendering of a month of a year. -/
def monthYearString (month year : Nat) : String :=
  String.mk (zeroPadded 2 month ++ ['-'] ++ zeroPadded 4 year)

/-- A live (not soft-deleted) row with the given id. -/
def liveWithId (id : Int) (r : Subscription) : Prop :=
  r.DeletedAt = none ∧ (r.ID : Int) = id

instance (id : Int) (r : Subscription) : Decidable (liveWithId id r) := by
  unfold liveWithId
  infer_instance

/-- What the contract of section 4.1 asks of one parse of the string `s`: it succeeds
exactly on `MM-YYYY` strings, a success is the first instant of the month named, and
anything else is an error. -/
def parsesStrictly (result : Except ParseError Time) (s : String) : Prop :=
  ((∃ t, result = .ok t) ↔ validMonthYear s = true) ∧
    (validMonthYear s = true → result = .ok (firstInstant (yearOf s) (monthOf s))) ∧
    (validMonthYear s = false → ∃ e, result = .error e)

/-! ## Sample data -/

/-- A clock reading: 15 June 2024, 12:00 UTC. -/
def sampleNow : Time := ⟨2024, 6, 15, 12, 0, 0, 0⟩

/-- A well-formed user id. -/
def sampleUser : String := "60601fee-2bf1-4721-ae6f-7636e79a0cba"

/-- A bound create request: only the fields a client supplies are set. -/
def createRequest (service : String) (price : Int) (user start : String) : Subscription :=
  { Subscription.zeroValue with
    ServiceName := service
    Price := price
    User_ID := user
    StartDate := start }

/-- The table after creating the three subscriptions of the spec's aggregation example,
(u1, Netflix, 03-2024, 100), (u1, Spotify, 03-2024, 50), (u2, Netflix, 03-2024, 200),
one after the other on an empty table. -/
def exampleTable : Table :=
  let t1 :=
    (CreateSubscription sampleNow [] (.ok (createRequest "Netflix" 100 "u1" "03-2024"))).table
  let t2 :=
    (CreateSubscription sampleNow t1 (.ok (createRequest "Spotify" 50 "u1" "03-2024"))).table
  (CreateSubscription sampleNow t2 (.ok (createRequest "Netflix" 200 "u2" "03-2024"))).table

/-- The filter of the spec's aggregation example: (u1, Netflix, 01-2024..12-2024). -/
def exampleFilter : SubscriptionSumRequest :=
  ⟨"u1", "Netflix", "01-2024", "12-2024", Time.zero, Time.zero⟩

/-- The table after creating two subscriptions of price 9223372036854775807, the largest
Go `int`, both starting 03-2024. -/
def largePriceTable : Table :=
  let t1 := (CreateSubscription sampleNow []
    (.ok (createRequest "Netflix" 9223372036854775807 sampleUser "03-2024"))).table
  (CreateSubscription sampleNow t1
    (.ok (createRequest "Spotify" 9223372036854775807 sampleUser "03-2024"))).table

/-- A sum request for the period 01-2024..12-2024 without filters. -/
def yearFilter : SubscriptionSumRequest :=
  ⟨"", "", "01-2024", "12-2024", Time.zero, Time.zero⟩

/-- A sum request whose start date is not `MM-YYYY` (year first). -/
def malformedFilter : SubscriptionSumRequest :=
  ⟨"", "", "2024-01", "12-2024", Time.zero, Time.zero⟩

/-- An update request with start `01-2023` and a client-chosen end `07-2030`. -/
def sampleUpdate : UpdateRequest :=
  ⟨"Netflix", 150, sampleUser, "01-2023", "07-2030", Time.zero, Time.zero⟩

/-! ## Lemmas on the date functions -/

theorem lexLe_refl (l : List Int) : lexLe l l = true := by
  induction l with
  | nil => rfl
  | cons a as ih => simp [lexLe, ih]

/-- The range of `BETWEEN` is inclusive: an instant is not after itself. -/
theorem Time_le_refl (t : Time) : Time.le t t = true := lexLe_refl _

theorem lexLe_cons (a b : Int) (as bs : List Int) :
    lexLe (a :: as) (b :: bs) = true ↔ a < b ∨ (a = b ∧ lexLe as bs = true) := by
  rw [lexLe]
  by_cases h1 : a < b
  · simp only [h1, if_true, true_or]
  · by_cases h2 : b < a
    · simp only [h1, h2, if_true, if_false, Bool.false_eq_true, false_or, false_iff, not_and]
      intro h
      omega
    · have h3 : a = b := by omega
      subst h3
      simp only [lt_self_iff_false, if_false, true_and, false_or]

theorem Time_le_iff (t u : Time) : Time.le t u = true ↔ notAfter t u := by
  unfold Time.le Time.fields notAfter
  have hnil : lexLe [] [] = true := rfl
  simp only [lexLe_cons, Nat.cast_lt, Nat.cast_inj, hnil, and_true, ← Nat.le_iff_lt_or_eq]

theorem Time_le_eq_decide (t u : Time) : Time.le t u = decide (notAfter t u) := by
  rw [Bool.eq_iff_iff, decide_eq_true_eq]
  exact Time_le_iff t u

theorem isDigit_iff (c : Char) : isDigit c = true ↔ 48 ≤ c.toNat ∧ c.toNat ≤ 57 := by
  simp [isDigit]

theorem digitChar_digitVal (c : Char) (h : isDigit c = true) : digitChar (digitVal c) = c := by
  have h1 := (isDigit_iff c).1 h
  unfold digitChar digitVal
  rw [Nat.add_sub_cancel' h1.1]
  exact Char.ofNat_toNat c

theorem digitVal_lt (c : Char) (h : isDigit c = true) : digitVal c < 10 := by
  have h1 := (isDigit_iff c).1 h
  unfold digitVal
  omega

theorem skipDash_eq_some (v r : List Char) : skipDash v = some r ↔ v = '-' :: r := by
  unfold skipDash
  split
  · simp
  · rename_i h
    constructor
    · intro h0
      cases h0
    · intro hv
      exact absurd hv (h r)

theorem Date_first (y : Int) (m : Nat) (h1 : 1 ≤ m) (h2 : m ≤ 12) (hh mi ss ns : Nat) :
    Date y m 1 hh mi ss ns = ⟨y, m, 1, hh, mi, ss, ns⟩ := by
  have hn : norm y ((m : Int) - 1) 12 = (y, (m : Int) - 1) := by
    unfold norm
    have : ¬ ((m : Int) - 1 < 0) := by omega
    have h3 : ¬ ((m : Int) - 1 ≥ 12) := by omega
    simp [this, h3]
  have hd : 28 ≤ daysIn m y := by
    unfold daysIn
    split
    · split <;> omega
    · split <;> omega
  unfold Date
  rw [hn]
  have hm : ((m : Int) - 1).toNat + 1 = m := by omega
  simp only [hm]
  have : rollDay ((1 : Int).natAbs + 1) y m 1 = (y, m, 1) := by
    show rollDay (1 + 1) y m 1 = _
    unfold rollDay
    have a1 : ¬ ((1 : Int) < 1) := by omega
    have a2 : ¬ ((1 : Int) > (daysIn m y : Int)) := by omega
    simp [a1, a2]
  rw [this]

theorem daysIn_bounds (m : Nat) (y : Int) : 28 ≤ daysIn m y ∧ daysIn m y ≤ 31 := by
  unfold daysIn
  split
  · split <;> omega
  · split <;> omega

theorem norm_12_range (hi lo : Int) : 0 ≤ (norm hi lo 12).2 ∧ (norm hi lo 12).2 < 12 := by
  unfold norm
  by_cases h : lo < 0
  · simp only [h, if_true]
    split <;> omega
  · simp only [h, if_false]
    split <;> omega

theorem rollDay_inRange (fuel : Nat) :
    ∀ (y : Int) (m : Nat) (d : Int), 1 ≤ m → m ≤ 12 →
      (d < 1 → 1 - d ≤ 28 * (fuel : Int)) →
      (d > daysIn m y → d - daysIn m y ≤ 28 * (fuel : Int)) →
      1 ≤ (rollDay fuel y m d).2.1 ∧ (rollDay fuel y m d).2.1 ≤ 12 ∧
        1 ≤ (rollDay fuel y m d).2.2 ∧
        (rollDay fuel y m d).2.2 ≤ daysIn (rollDay fuel y m d).2.1 (rollDay fuel y m d).1 := by
  induction fuel with
  | zero =>
    intro y m d h1 h2 hlo hhi
    have a : 1 ≤ d := by
      by_contra hc
      have := hlo (by omega)
      omega
    have b : d ≤ daysIn m y := by
      by_contra hc
      have := hhi (by omega)
      omega
    simp only [rollDay]
    refine ⟨h1, h2, by omega, by omega⟩
  | succ n ih =>
    intro y m d h1 h2 hlo hhi
    unfold rollDay
    by_cases hd : d < 1
    · simp only [hd, if_true]
      have hb := daysIn_bounds (if m = 1 then 12 else m - 1) (if m = 1 then y - 1 else y)
      have hl := hlo hd
      apply ih
      · split <;> omega
      · split <;> omega
      · intro _
        push_cast at hl
        omega
      · intro hc
        omega
    · by_cases hu : d > daysIn m y
      · simp only [hd, hu, if_true, if_false]
        have hb := daysIn_bounds m y
        have hb2 := daysIn_bounds (if m = 12 then 1 else m + 1) (if m = 12 then y + 1 else y)
        have hl := hhi hu
        apply ih
        · split <;> omega
        · split <;> omega
        · intro hc
          omega
        · intro _
          push_cast at hl
          omega
      · simp only [hd, hu, if_false]
        refine ⟨h1, h2, by omega, by omega⟩

/-- `Date` always yields a normalised date: the day roll never runs out of steps. -/
theorem Date_normalised (year month day : Int) (hour min sec nsec : Nat) :
    1 ≤ (Date year month day hour min sec nsec).month ∧
      (Date year month day hour min sec nsec).month ≤ 12 ∧
      1 ≤ (Date year month day hour min sec nsec).day ∧
      (Date year month day hour min sec nsec).day ≤
        daysIn (Date year month day hour min sec nsec).month
          (Date year month day hour min sec nsec).year := by
  have hn := norm_12_range year (month - 1)
  have hb := daysIn_bounds ((norm year (month - 1) 12).2.toNat + 1) (norm year (month - 1) 12).1
  have := rollDay_inRange (day.natAbs + 1) (norm year (month - 1) 12).1
    ((norm year (month - 1) 12).2.toNat + 1) day (by omega) (by omega)
    (by intro _; simp only [Nat.cast_add, Nat.cast_one]; omega)
    (by intro _; simp only [Nat.cast_add, Nat.cast_one]; omega)
  exact this

theorem getnum_fixed_eq_some (l : List Char) (n : Nat) (r : List Char) :
    getnum l true = some (n, r) ↔
      ∃ a b, l = a :: b :: r ∧ isDigit a = true ∧ isDigit b = true ∧
        n = digitVal a * 10 + digitVal b := by
  rcases l with _ | ⟨a, _ | ⟨b, rest⟩⟩
  · simp [getnum]
  · simp [getnum]
  · by_cases ha : isDigit a = true <;> by_cases hb : isDigit b = true
    · simp only [getnum, ha, hb, if_true, Option.some.injEq, Prod.mk.injEq, List.cons.injEq]
      constructor
      · rintro ⟨h1, h2⟩
        exact ⟨a, b, ⟨rfl, rfl, h2⟩, ha, hb, h1.symm⟩
      · rintro ⟨a1, b1, ⟨rfl, rfl, rfl⟩, -, -, h⟩
        exact ⟨h.symm, rfl⟩
    · simp only [getnum, ha, hb, if_true]
      constructor
      · intro h
        simp at h
      · rintro ⟨a1, b1, h1, h2, h3, -⟩
        simp only [List.cons.injEq] at h1
        rw [← h1.2.1] at h3
        exact absurd h3 hb
    · simp only [getnum, ha]
      constructor
      · intro h
        simp at h
      · rintro ⟨a1, b1, h1, h2, h3, -⟩
        simp only [List.cons.injEq] at h1
        rw [← h1.1] at h2
        exact absurd h2 ha
    · simp only [getnum, ha]
      constructor
      · intro h
        simp at h
      · rintro ⟨a1, b1, h1, h2, h3, -⟩
        simp only [List.cons.injEq] at h1
        rw [← h1.1] at h2
        exact absurd h2 ha

theorem longYear_eq_some (l : List Char) (n : Nat) (r : List Char) :
    longYear l = some (n, r) ↔
      ∃ c d e f, l = c :: d :: e :: f :: r ∧ isDigit c = true ∧ isDigit d = true ∧
        isDigit e = true ∧ isDigit f = true ∧
        n = digitVal c * 1000 + digitVal d * 100 + digitVal e * 10 + digitVal f := by
  rcases l with _ | ⟨c, _ | ⟨d, _ | ⟨e, _ | ⟨f, rest⟩⟩⟩⟩
  · simp [longYear]
  · simp [longYear]
  · simp [longYear]
  · simp [longYear]
  · simp only [longYear]
    constructor
    · intro h
      split at h
      · rename_i hd
        simp only [Bool.and_eq_true] at hd
        simp only [Option.some.injEq, Prod.mk.injEq] at h
        exact ⟨c, d, e, f, by rw [h.2], hd.1.1.1, hd.1.1.2, hd.1.2, hd.2, h.1.symm⟩
      · cases h
    · rintro ⟨c1, d1, e1, f1, h1, hc, hd, he, hf, hn⟩
      simp only [List.cons.injEq] at h1
      obtain ⟨rfl, rfl, rfl, rfl, rfl⟩ := h1
      simp [hc, hd, he, hf, hn]

theorem Parse_ok_iff (s : String) (t : Time) :
    Parse s = .ok t ↔
      ∃ a b c d e f : Char, s.toList = [a, b, '-', c, d, e, f] ∧
        isDigit a = true ∧ isDigit b = true ∧ isDigit c = true ∧ isDigit d = true ∧
        isDigit e = true ∧ isDigit f = true ∧
        1 ≤ digitVal a * 10 + digitVal b ∧ digitVal a * 10 + digitVal b ≤ 12 ∧
        t = ⟨((digitVal c * 1000 + digitVal d * 100 + digitVal e * 10 + digitVal f : Nat) : Int),
          digitVal a * 10 + digitVal b, 1, 0, 0, 0, 0⟩ := by
  constructor
  · intro h
    unfold Parse at h
    split at h
    · cases h
    · rename_i month v1 hg
      obtain ⟨a, b, hl, ha, hb, hm⟩ := (getnum_fixed_eq_some _ _ _).1 hg
      split at h
      · cases h
      · rename_i hrange
        split at h
        · cases h
        · rename_i v2 hs
          have hv1 := (skipDash_eq_some _ _).1 hs
          split at h
          · cases h
          · rename_i year v3 hy
            obtain ⟨c, d, e, f, hv2, hc, hd, he, hf, hyr⟩ := (longYear_eq_some _ _ _).1 hy
            split at h
            · cases h
            · rename_i hlen
              have hv3 : v3 = [] := by
                cases v3 with
                | nil => rfl
                | cons x xs => simp at hlen
              have hm1 : 1 ≤ month ∧ month ≤ 12 := by omega
              have hdate := Date_first (year : Int) month hm1.1 hm1.2 0 0 0 0
              simp only [Except.ok.injEq] at h
              refine ⟨a, b, c, d, e, f, ?_, ha, hb, hc, hd, he, hf, ?_, ?_, ?_⟩
              · rw [hl, hv1, hv2, hv3]
              · omega
              · omega
              · rw [← h, ← hm, ← hyr]
                exact hdate
  · rintro ⟨a, b, c, d, e, f, hl, ha, hb, hc, hd, he, hf, h1, h2, ht⟩
    have hg : getnum s.toList true = some (digitVal a * 10 + digitVal b, '-' :: [c, d, e, f]) :=
      (getnum_fixed_eq_some _ _ _).2 ⟨a, b, hl, ha, hb, rfl⟩
    have hs : skipDash ('-' :: [c, d, e, f]) = some [c, d, e, f] :=
      (skipDash_eq_some _ _).2 rfl
    have hy : longYear [c, d, e, f] =
        some (digitVal c * 1000 + digitVal d * 100 + digitVal e * 10 + digitVal f, []) :=
      (longYear_eq_some _ _ _).2 ⟨c, d, e, f, rfl, hc, hd, he, hf, rfl⟩
    have hr : ¬ (digitVal a * 10 + digitVal b ≤ 0 ∨ 12 < digitVal a * 10 + digitVal b) := by
      omega
    have hdate := Date_first
      ((digitVal c * 1000 + digitVal d * 100 + digitVal e * 10 + digitVal f : Nat) : Int)
      (digitVal a * 10 + digitVal b) h1 h2 0 0 0 0
    unfold Parse
    simp only [hg, hs, hy, hr, if_false, List.length_nil, gt_iff_lt, lt_self_iff_false]
    rw [ht]
    exact congrArg Except.ok hdate

theorem isDigit_eq (c : Char) : c.isDigit = isDigit c := by
  simp only [Char.isDigit, isDigit, Char.toNat]
  rw [Bool.eq_iff_iff]
  simp only [Bool.and_eq_true, decide_eq_true_eq, ge_iff_le]
  constructor
  · rintro ⟨h1, h2⟩
    exact ⟨h1, h2⟩
  · rintro ⟨h1, h2⟩
    exact ⟨h1, h2⟩

theorem validMonthYear_iff (s : String) :
    validMonthYear s = true ↔
      ∃ a b c d e f : Char, s.toList = [a, b, '-', c, d, e, f] ∧
        isDigit a = true ∧ isDigit b = true ∧ isDigit c = true ∧ isDigit d = true ∧
        isDigit e = true ∧ isDigit f = true ∧
        1 ≤ digitVal a * 10 + digitVal b ∧ digitVal a * 10 + digitVal b ≤ 12 := by
  unfold validMonthYear
  constructor
  · intro h
    split at h
    · rename_i m1 m2 dash y1 y2 y3 y4 hl
      simp only [Bool.and_eq_true, decide_eq_true_eq, beq_iff_eq, isDigit_eq] at h
      obtain ⟨⟨⟨⟨⟨⟨⟨⟨h1, h2⟩, h3⟩, h4⟩, h5⟩, h6⟩, h7⟩, h8⟩, h9⟩ := h
      subst h3
      exact ⟨m1, m2, y1, y2, y3, y4, hl, h1, h2, h4, h5, h6, h7, h8, h9⟩
    · cases h
  · rintro ⟨a, b, c, d, e, f, hl, ha, hb, hc, hd, he, hf, h1, h2⟩
    rw [hl]
    simp only [Bool.and_eq_true, decide_eq_true_eq, beq_iff_eq, isDigit_eq]
    exact ⟨⟨⟨⟨⟨⟨⟨⟨ha, hb⟩, trivial⟩, hc⟩, hd⟩, he⟩, hf⟩, h1⟩, h2⟩

theorem Parse_of_valid (s : String) (h : validMonthYear s = true) :
    Parse s = .ok (firstInstant (yearOf s) (monthOf s)) := by
  obtain ⟨a, b, c, d, e, f, hl, ha, hb, hc, hd, he, hf, h1, h2⟩ := (validMonthYear_iff s).1 h
  refine (Parse_ok_iff s _).2 ⟨a, b, c, d, e, f, hl, ha, hb, hc, hd, he, hf, h1, h2, ?_⟩
  unfold firstInstant yearOf monthOf
  rw [hl]
  rfl

theorem Parse_valid_of_ok (s : String) (t : Time) (h : Parse s = .ok t) :
    validMonthYear s = true := by
  obtain ⟨a, b, c, d, e, f, hl, ha, hb, hc, hd, he, hf, h1, h2, -⟩ := (Parse_ok_iff s t).1 h
  exact (validMonthYear_iff s).2 ⟨a, b, c, d, e, f, hl, ha, hb, hc, hd, he, hf, h1, h2⟩

theorem Format_firstInstant (s : String) (h : validMonthYear s = true) :
    (firstInstant (yearOf s) (monthOf s)).Format = s := by
  obtain ⟨a, b, c, d, e, f, hl, ha, hb, hc, hd, he, hf, h1, h2⟩ := (validMonthYear_iff s).1 h
  have la := digitVal_lt a ha
  have lb := digitVal_lt b hb
  have lc := digitVal_lt c hc
  have ld := digitVal_lt d hd
  have le := digitVal_lt e he
  have lf := digitVal_lt f hf
  have hm : monthOf s = digitVal a * 10 + digitVal b := by
    unfold monthOf
    rw [hl]
    rfl
  have hy : yearOf s =
      digitVal c * 1000 + digitVal d * 100 + digitVal e * 10 + digitVal f := by
    unfold yearOf
    rw [hl]
    rfl
  have e1 : appendInt ((digitVal a * 10 + digitVal b : Nat) : Int) 2 = [a, b] := by
    unfold appendInt
    have hlt : digitVal a * 10 + digitVal b < 100 := by omega
    have hneg : ¬ (((digitVal a * 10 + digitVal b : Nat) : Int) < 0) := by omega
    simp only [Int.natAbs_ofNat, hlt, hneg, and_self, if_true, if_false, List.nil_append]
    have q1 : (digitVal a * 10 + digitVal b) / 10 = digitVal a := by omega
    have q2 : (digitVal a * 10 + digitVal b) % 10 = digitVal b := by omega
    rw [q1, q2, digitChar_digitVal a ha, digitChar_digitVal b hb]
  have e2 : appendInt
      ((digitVal c * 1000 + digitVal d * 100 + digitVal e * 10 + digitVal f : Nat) : Int) 4 =
      [c, d, e, f] := by
    unfold appendInt
    have hlt : digitVal c * 1000 + digitVal d * 100 + digitVal e * 10 + digitVal f < 10000 := by
      omega
    have hneg : ¬ (((digitVal c * 1000 + digitVal d * 100 + digitVal e * 10 + digitVal f : Nat)
        : Int) < 0) := by omega
    have h42 : ¬ ((4 : Nat) = 2) := by decide
    simp only [Int.natAbs_ofNat, hlt, hneg, h42, false_and, and_self, if_true, if_false,
      List.nil_append]
    have q1 : (digitVal c * 1000 + digitVal d * 100 + digitVal e * 10 + digitVal f) / 1000 =
        digitVal c := by omega
    have q2 : (digitVal c * 1000 + digitVal d * 100 + digitVal e * 10 + digitVal f) / 100 % 10 =
        digitVal d := by omega
    have q3 : (digitVal c * 1000 + digitVal d * 100 + digitVal e * 10 + digitVal f) / 10 % 10 =
        digitVal e := by omega
    have q4 : (digitVal c * 1000 + digitVal d * 100 + digitVal e * 10 + digitVal f) % 10 =
        digitVal f := by omega
    rw [q1, q2, q3, q4, digitChar_digitVal c hc, digitChar_digitVal d hd,
      digitChar_digitVal e he, digitChar_digitVal f hf]
  unfold Time.Format firstInstant
  simp only [hm, hy, e1, e2]
  show String.mk [a, b, '-', c, d, e, f] = s
  rw [← hl]
  rfl

theorem selected_sumConds (req : SubscriptionSumRequest) (r : Subscription) :
    selected (sumConds req) r =
      inSelection req.UserID req.ServiceName (dropErr req.GetStartDate)
        (dropErr req.GetEndDate) r := by
  unfold sumConds inSelection selected
  by_cases hu : req.UserID = "" <;> by_cases hs : req.ServiceName = ""
  all_goals
    simp only [hu, hs, ne_eq, not_true_eq_false, not_false_eq_true, and_self, and_true,
      and_false, false_and, true_and, if_true, if_false, List.all_cons, List.all_nil,
      Cond.holds, Bool.and_true, beq_self_eq_true, Bool.true_or, Bool.or_true,
      SubscriptionSumRequest.GetStartDate, SubscriptionSumRequest.GetEndDate,
      decide_True, decide_False, Bool.false_or, Time_le_eq_decide]
  all_goals
    generalize decide (notAfter (dropErr (Parse req.StartDate)) r.CreatedAt) = p1
    generalize decide (notAfter r.CreatedAt (dropErr (Parse req.EndDate))) = p2
    generalize r.DeletedAt.isNone = p3
    try generalize decide (r.User_ID = req.UserID) = p4
    try generalize decide (r.ServiceName = req.ServiceName) = p5
    revert p1 p2 p3
    try revert p4
    try revert p5
    decide

theorem valid_ne_empty (s : String) (h : validMonthYear s = true) : s ≠ "" := by
  obtain ⟨a, b, c, d, e, f, hl, -⟩ := (validMonthYear_iff s).1 h
  intro hs
  rw [hs] at hl
  cases hl

theorem sum_filter_none (db : Table) (p : Subscription → Bool)
    (h : ∀ r ∈ db, p r = false) : ((db.filter p).map (fun r => r.Price)).sum = 0 := by
  have : db.filter p = [] := by
    rw [List.filter_eq_nil_iff]
    intro r hr
    rw [h r hr]
    simp
  rw [this]
  rfl

theorem natDigitChar_eq (n : Nat) (h : n < 10) : Nat.digitChar n = digitChar n := by
  interval_cases n <;> rfl

theorem toDigitsCore_small (f n : Nat) (ds : List Char) (h : n < 10) :
    Nat.toDigitsCore 10 (f + 1) n ds = digitChar n :: ds := by
  have h0 : n / 10 = 0 := by omega
  have h1 : n % 10 = n := by omega
  simp only [Nat.toDigitsCore, h0, h1, if_true, natDigitChar_eq n h]

theorem toDigitsCore_step (f n : Nat) (ds : List Char) (h : 10 ≤ n) :
    Nat.toDigitsCore 10 (f + 1) n ds =
      Nat.toDigitsCore 10 f (n / 10) (digitChar (n % 10) :: ds) := by
  have h0 : ¬ (n / 10 = 0) := by omega
  have h1 : n % 10 < 10 := by omega
  simp only [Nat.toDigitsCore, h0, if_false, natDigitChar_eq _ h1]

theorem toDigits_1 (n : Nat) (h : n < 10) : Nat.toDigits 10 n = [digitChar n] := by
  unfold Nat.toDigits
  exact toDigitsCore_small n n [] h

theorem toDigits_2 (n : Nat) (h1 : 10 ≤ n) (h2 : n < 100) :
    Nat.toDigits 10 n = [digitChar (n / 10), digitChar (n % 10)] := by
  unfold Nat.toDigits
  obtain ⟨k, rfl⟩ : ∃ k, n = k + 1 := ⟨n - 1, by omega⟩
  rw [toDigitsCore_step _ _ _ h1, toDigitsCore_small _ _ _ (by omega)]

theorem toDigits_3 (n : Nat) (h1 : 100 ≤ n) (h2 : n < 1000) :
    Nat.toDigits 10 n = [digitChar (n / 100), digitChar (n / 10 % 10), digitChar (n % 10)] := by
  unfold Nat.toDigits
  obtain ⟨k, rfl⟩ : ∃ k, n = k + 2 := ⟨n - 2, by omega⟩
  rw [toDigitsCore_step _ _ _ (by omega), toDigitsCore_step _ _ _ (by omega),
    toDigitsCore_small _ _ _ (by omega)]
  have : (k + 2) / 10 / 10 = (k + 2) / 100 := by omega
  rw [this]

theorem toDigits_4 (n : Nat) (h1 : 1000 ≤ n) (h2 : n < 10000) :
    Nat.toDigits 10 n =
      [digitChar (n / 1000), digitChar (n / 100 % 10), digitChar (n / 10 % 10),
        digitChar (n % 10)] := by
  unfold Nat.toDigits
  obtain ⟨k, rfl⟩ : ∃ k, n = k + 3 := ⟨n - 3, by omega⟩
  rw [toDigitsCore_step _ _ _ (by omega), toDigitsCore_step _ _ _ (by omega),
    toDigitsCore_step _ _ _ (by omega), toDigitsCore_small _ _ _ (by omega)]
  have e1 : (k + 3) / 10 / 10 / 10 = (k + 3) / 1000 := by omega
  have e2 : (k + 3) / 10 / 10 % 10 = (k + 3) / 100 % 10 := by omega
  rw [e1, e2]

theorem zeroPadded_eq (width n : Nat) :
    zeroPadded width n =
      List.replicate (width - (Nat.toDigits 10 n).length) '0' ++ Nat.toDigits 10 n := rfl

theorem digitChar_zero : digitChar 0 = '0' := rfl

theorem appendInt_eq_zeroPadded_2 (n : Nat) (h : n < 100) :
    appendInt (n : Int) 2 = zeroPadded 2 n := by
  have hneg : ¬ ((n : Int) < 0) := by omega
  rw [zeroPadded_eq]
  unfold appendInt
  simp only [Int.natAbs_ofNat, h, hneg, and_self, if_true, if_false, List.nil_append]
  by_cases h1 : n < 10
  · have q : n / 10 = 0 := by omega
    have r : n % 10 = n := by omega
    rw [toDigits_1 n h1, q, r, digitChar_zero]
    rfl
  · rw [toDigits_2 n (by omega) h]
    rfl

theorem appendInt_eq_zeroPadded_4 (n : Nat) : appendInt (n : Int) 4 = zeroPadded 4 n := by
  have hneg : ¬ ((n : Int) < 0) := by omega
  have h42 : ¬ ((4 : Nat) = 2) := by decide
  rw [zeroPadded_eq]
  unfold appendInt
  by_cases h : n < 10000
  · simp only [Int.natAbs_ofNat, h, hneg, h42, false_and, and_self, if_true, if_false,
      List.nil_append]
    by_cases h1 : n < 10
    · have q1 : n / 1000 = 0 := by omega
      have q2 : n / 100 % 10 = 0 := by omega
      have q3 : n / 10 % 10 = 0 := by omega
      have q4 : n % 10 = n := by omega
      rw [toDigits_1 n h1, q1, q2, q3, q4, digitChar_zero]
      rfl
    · by_cases h2 : n < 100
      · have q1 : n / 1000 = 0 := by omega
        have q2 : n / 100 % 10 = 0 := by omega
        have q3 : n / 10 % 10 = n / 10 := by omega
        rw [toDigits_2 n (by omega) h2, q1, q2, q3, digitChar_zero]
        rfl
      · by_cases h3 : n < 1000
        · have q1 : n / 1000 = 0 := by omega
          have q2 : n / 100 % 10 = n / 100 := by omega
          rw [toDigits_3 n (by omega) h3, q1, q2, digitChar_zero]
          rfl
        · rw [toDigits_4 n (by omega) h]
          rfl
  · simp only [Int.natAbs_ofNat, h, hneg, h42, false_and, and_false, if_false,
      List.nil_append]

theorem Format_eq_monthYearString (year month : Nat) (h : month < 100) (hh mi ss ns d : Nat) :
    (Time.mk (year : Int) month d hh mi ss ns).Format = monthYearString month year := by
  unfold Time.Format monthYearString
  simp only [appendInt_eq_zeroPadded_2 month h, appendInt_eq_zeroPadded_4 year]

theorem digitChar_roundtrip (k : Nat) (h : k < 10) :
    isDigit (digitChar k) = true ∧ digitVal (digitChar k) = k := by
  interval_cases k <;> exact ⟨rfl, rfl⟩

theorem AddDate_firstInstant (y : Int) (m : Nat) (h1 : 1 ≤ m) (h2 : m ≤ 12) :
    (firstInstant y m).AddDate 1 0 0 = firstInstant (y + 1) m := by
  unfold Time.AddDate firstInstant
  simp only [add_zero, Nat.cast_one]
  exact Date_first (y + 1) m h1 h2 0 0 0 0

theorem monthOf_range (s : String) (h : validMonthYear s = true) :
    1 ≤ monthOf s ∧ monthOf s ≤ 12 ∧ yearOf s < 10000 := by
  obtain ⟨a, b, c, d, e, f, hl, ha, hb, hc, hd, he, hf, h1, h2⟩ := (validMonthYear_iff s).1 h
  have lc := digitVal_lt c hc
  have ld := digitVal_lt d hd
  have le := digitVal_lt e he
  have lf := digitVal_lt f hf
  have hm : monthOf s = digitVal a * 10 + digitVal b := by
    unfold monthOf
    rw [hl]
    rfl
  have hy : yearOf s =
      digitVal c * 1000 + digitVal d * 100 + digitVal e * 10 + digitVal f := by
    unfold yearOf
    rw [hl]
    rfl
  omega

theorem monthYearString_valid (m y : Nat) (h1 : 1 ≤ m) (h2 : m ≤ 12) (hy : y < 10000) :
    validMonthYear (monthYearString m y) = true ∧ monthOf (monthYearString m y) = m ∧
      yearOf (monthYearString m y) = y := by
  have e : monthYearString m y =
      String.mk [digitChar (m / 10), digitChar (m % 10), '-', digitChar (y / 1000),
        digitChar (y / 100 % 10), digitChar (y / 10 % 10), digitChar (y % 10)] := by
    have hm : m < 100 := by omega
    have hneg : ¬ ((m : Int) < 0) := by omega
    have hneg2 : ¬ ((y : Int) < 0) := by omega
    have h42 : ¬ ((4 : Nat) = 2) := by decide
    unfold monthYearString
    rw [← appendInt_eq_zeroPadded_2 m hm, ← appendInt_eq_zeroPadded_4 y]
    unfold appendInt
    simp only [Int.natAbs_ofNat, hm, hy, hneg, hneg2, h42, false_and, and_self, if_true,
      if_false, List.nil_append]
    rfl
  obtain ⟨a1, a2⟩ := digitChar_roundtrip (m / 10) (by omega)
  obtain ⟨b1, b2⟩ := digitChar_roundtrip (m % 10) (by omega)
  obtain ⟨c1, c2⟩ := digitChar_roundtrip (y / 1000) (by omega)
  obtain ⟨d1, d2⟩ := digitChar_roundtrip (y / 100 % 10) (by omega)
  obtain ⟨e1, e2⟩ := digitChar_roundtrip (y / 10 % 10) (by omega)
  obtain ⟨f1, f2⟩ := digitChar_roundtrip (y % 10) (by omega)
  refine ⟨?_, ?_, ?_⟩
  · refine (validMonthYear_iff _).2 ⟨_, _, _, _, _, _, by rw [e]; rfl, a1, b1, c1, d1, e1, f1, ?_, ?_⟩
    · rw [a2, b2]
      omega
    · rw [a2, b2]
      omega
  · rw [e]
    show digitVal (digitChar (m / 10)) * 10 + digitVal (digitChar (m % 10)) = m
    rw [a2, b2]
    omega
  · rw [e]
    show digitVal (digitChar (y / 1000)) * 1000 + digitVal (digitChar (y / 100 % 10)) * 100 +
      digitVal (digitChar (y / 10 % 10)) * 10 + digitVal (digitChar (y % 10)) = y
    rw [c2, d2, e2, f2]
    omega

theorem CreateSubscription_calls (now : Time) (db : Table) (s : Subscription) :
    (CreateSubscription now db (.ok s)).calls = [.Create (derivedRecord s)] := by
  unfold CreateSubscription
  simp only
  split <;> rfl

theorem derivedRecord_of_valid (s : Subscription) (h : validMonthYear s.StartDate = true) :
    (derivedRecord s).CreatedAt = firstInstant (yearOf s.StartDate) (monthOf s.StartDate) ∧
      (derivedRecord s).Ended =
        firstInstant ((yearOf s.StartDate + 1 : Nat) : Int) (monthOf s.StartDate) ∧
      (derivedRecord s).EndTime =
        monthYearString (monthOf s.StartDate) (yearOf s.StartDate + 1) := by
  obtain ⟨m1, m2, -⟩ := monthOf_range _ h
  have hp := Parse_of_valid _ h
  have ha := AddDate_firstInstant (yearOf s.StartDate) (monthOf s.StartDate) m1 m2
  have hc : ((yearOf s.StartDate : Nat) : Int) + 1 = ((yearOf s.StartDate + 1 : Nat) : Int) := by
    omega
  rw [hc] at ha
  refine ⟨?_, ?_, ?_⟩
  · simp only [derivedRecord, Subscription.GetStartDate, hp, dropErr]
  · simp only [derivedRecord, Subscription.GetEndDate, hp, dropErr, ha]
  · simp only [derivedRecord, Subscription.GetEndDate, hp, dropErr, ha]
    exact Format_eq_monthYearString _ _ (by omega) 0 0 0 0 1

theorem selected_idEq (id : Int) (r : Subscription) :
    selected [.idEq id] r = true ↔ liveWithId id r := by
  unfold selected liveWithId
  simp only [List.all_cons, List.all_nil, Bool.and_true, Cond.holds, Bool.and_eq_true,
    decide_eq_true_eq, Option.isNone_iff_eq_none]
  exact And.comm

theorem filter_length_zero_iff (db : Table) (p : Subscription → Bool) :
    (db.filter p).length = 0 ↔ ∀ r ∈ db, p r ≠ true := by
  rw [List.length_eq_zero, List.filter_eq_nil_iff]

theorem map_softDelete_of_none (now : Time) (db : Table) (id : Int)
    (h : ∀ r ∈ db, ¬ liveWithId id r) :
    db.map (fun r => if selected [.idEq id] r then { r with DeletedAt := some now } else r) =
      db := by
  induction db with
  | nil => rfl
  | cons r rest ih =>
    have hn : ¬ (selected [.idEq id] r = true) :=
      fun hs => h r (List.mem_cons_self r rest) ((selected_idEq id r).1 hs)
    rw [List.map_cons, ih (fun x hx => h x (List.mem_cons_of_mem r hx))]
    simp only [hn, if_false, Bool.false_eq_true]

theorem softDeleted_not_live (now : Time) (db : Table) (id : Int) :
    ∀ r ∈ db.map (fun r =>
        if selected [.idEq id] r then { r with DeletedAt := some now } else r),
      ¬ liveWithId id r := by
  intro r hr
  rw [List.mem_map] at hr
  obtain ⟨r0, -, rfl⟩ := hr
  by_cases hs : selected [.idEq id] r0 = true
  · simp only [hs, if_true]
    intro hl
    exact Option.noConfusion hl.1
  · simp only [hs, if_false, Bool.false_eq_true]
    exact fun hl => hs ((selected_idEq id r0).2 hl)

theorem DeleteSubscription_of_id (now : Time) (db : Table) (idParam : String) (id : Int)
    (h : Atoi idParam = some id) :
    DeleteSubscription now db idParam =
      if (db.filter (selected [.idEq id])).length = 0 then
        ⟨.JSON 404 (.error "Subscription not found"), [.Delete id], (dbDelete now db id).2⟩
      else ⟨.NoContent 204, [.Delete id], (dbDelete now db id).2⟩ := by
  unfold DeleteSubscription
  rw [h]
  simp only [dbDelete, Option.isSome_none, Bool.false_eq_true, if_false]

theorem UpdateSubscription_calls (now : Time) (db : Table) (id : String) (req : UpdateRequest)
    (hok : (UpdateSubscription now db id (.ok req)).response = .JSON 200 (.status "success")) :
    ∃ subId, Atoi id = some subId ∧
      (UpdateSubscription now db id (.ok req)).calls =
        [.Updates [.idEq subId] (updateFields req)] := by
  unfold UpdateSubscription at hok ⊢
  by_cases hp : req.Price ≤ 0
  · simp only [hp, if_true] at hok
    cases hok
  · cases ha : Atoi id with
    | none =>
      simp only [hp, if_false, ha] at hok
      cases hok
    | some subId =>
      refine ⟨subId, rfl, ?_⟩
      simp only [hp, if_false]
      split <;> [rfl; (split <;> rfl)]

theorem ReadSubscription_never_404 (db : Table) (id : String) (body : Body) :
    (ReadSubscription db id).response ≠ .JSON 404 body := by
  unfold ReadSubscription
  cases Atoi id with
  | none =>
    intro h
    cases h
  | some ID =>
    simp only [dbFirst]
    cases db.find? (selected [.idEq ID]) with
    | none =>
      intro h
      cases h
    | some r =>
      intro h
      cases h

/-- Strings `Parse` refuses: month 00, month 13, letters, a one-digit month, a two-digit
year, another separator, trailing text, the year first, the empty string. -/
theorem Parse_rejects :
    Parse "00-2024" = .error .monthOutOfRange ∧ Parse "13-2024" = .error .monthOutOfRange ∧
      Parse "ab-2024" = .error .bad ∧ Parse "1-2024" = .error .bad ∧
      Parse "01-24" = .error .bad ∧ Parse "01/2024" = .error .bad ∧
      Parse "01-2024 " = .error .extraText ∧ Parse "2024-01" = .error .monthOutOfRange ∧
      Parse "" = .error .bad := by
  decide

/-! ## The claims -/

/-- C2. For a bound create request whose start date `D` is a valid `MM-YYYY` string, the
record handed to `db.Create` has `CreatedAt` the first instant of month `D`, `Ended` the
first instant of the same month one year later, and `EndTime` the `MM-YYYY` rendering of
that month and year; up to year 9998 this `EndTime` is itself a valid `MM-YYYY` string
naming the same month and the next year (for 9999 the year rendered is 10000). -/
theorem CreateSubscription_derived_dates (now : Time) (db : Table) (s : Subscription)
    (h : validMonthYear s.StartDate = true) :
    ∃ sub, (CreateSubscription now db (.ok s)).calls = [.Create sub] ∧
      sub.CreatedAt = firstInstant (yearOf s.StartDate) (monthOf s.StartDate) ∧
      sub.Ended = firstInstant ((yearOf s.StartDate + 1 : Nat) : Int) (monthOf s.StartDate) ∧
      sub.EndTime = monthYearString (monthOf s.StartDate) (yearOf s.StartDate + 1) ∧
      (yearOf s.StartDate < 9999 →
        validMonthYear sub.EndTime = true ∧ monthOf sub.EndTime = monthOf s.StartDate ∧
          yearOf sub.EndTime = yearOf s.StartDate + 1) := by
  obtain ⟨h1, h2, h3⟩ := derivedRecord_of_valid s h
  obtain ⟨m1, m2, -⟩ := monthOf_range _ h
  refine ⟨derivedRecord s, CreateSubscription_calls now db s, h1, h2, h3, ?_⟩
  intro hy
  rw [h3]
  exact monthYearString_valid _ _ m1 m2 (by omega)

/-- C2 at `02-2024` (a leap year), with the spec's two other examples. -/
theorem CreateSubscription_derived_dates_examples :
    validMonthYear (createRequest "Netflix" 100 sampleUser "02-2024").StartDate = true ∧
      (∃ sub,
        (CreateSubscription sampleNow []
          (.ok (createRequest "Netflix" 100 sampleUser "02-2024"))).calls = [.Create sub] ∧
        sub.CreatedAt = ⟨2024, 2, 1, 0, 0, 0, 0⟩ ∧
        sub.Ended = ⟨2025, 2, 1, 0, 0, 0, 0⟩ ∧
        sub.EndTime = "02-2025") ∧
      (derivedRecord (createRequest "Netflix" 100 sampleUser "01-2023")).EndTime = "01-2024" ∧
      (derivedRecord (createRequest "Netflix" 100 sampleUser "12-2023")).EndTime = "12-2024" := by
  refine ⟨by decide, ?_, by decide, by decide⟩
  obtain ⟨sub, h1, h2, h3, h4, -⟩ :=
    CreateSubscription_derived_dates sampleNow []
      (createRequest "Netflix" 100 sampleUser "02-2024") (by decide)
  exact ⟨sub, h1, h2.trans (by decide), h3.trans (by decide), h4.trans (by decide)⟩

/-- C3. For a subscription whose start date is a valid `MM-YYYY` string, `GetStartDate`
succeeds and formatting its result with the layout `01-2006` gives the start date back. -/
theorem GetStartDate_Format_roundtrip (sub : Subscription)
    (h : validMonthYear sub.StartDate = true) :
    ∃ t, sub.GetStartDate = .ok t ∧ t.Format = sub.StartDate :=
  ⟨firstInstant (yearOf sub.StartDate) (monthOf sub.StartDate), Parse_of_valid _ h,
    Format_firstInstant _ h⟩

/-- C3 at `03-2024`. -/
theorem GetStartDate_Format_roundtrip_example :
    validMonthYear (createRequest "Netflix" 100 sampleUser "03-2024").StartDate = true ∧
      ∃ t, (createRequest "Netflix" 100 sampleUser "03-2024").GetStartDate = .ok t ∧
        t.Format = "03-2024" :=
  ⟨by decide,
    GetStartDate_Format_roundtrip (createRequest "Netflix" 100 sampleUser "03-2024") (by decide)⟩

/-- C4. `GetStartDate` (of a subscription and of a sum request, and the sum request's
`GetEndDate`) succeeds if and only if its string strictly matches `MM-YYYY`; on success
the result is day 1, 00:00:00 UTC of that month; every other string gives an error. -/
theorem GetStartDate_strict (sub : Subscription) (req : SubscriptionSumRequest) :
    parsesStrictly sub.GetStartDate sub.StartDate ∧
      parsesStrictly req.GetStartDate req.StartDate ∧
      parsesStrictly req.GetEndDate req.EndDate := by
  have key : ∀ s : String, parsesStrictly (Parse s) s := by
    intro s
    refine ⟨⟨?_, ?_⟩, Parse_of_valid s, ?_⟩
    · rintro ⟨t, ht⟩
      exact Parse_valid_of_ok s t ht
    · intro hv
      exact ⟨_, Parse_of_valid s hv⟩
    · intro hv
      cases hp : Parse s with
      | error e => exact ⟨e, rfl⟩
      | ok t =>
        rw [Parse_valid_of_ok s t hp] at hv
        cases hv
  exact ⟨key _, key _, key _⟩

/-- C8. `DeleteSubscription` with a numeric id reports 404 when no live row has the id
(and leaves the table as it was); otherwise it reports 204 and soft-deletes: no row is
erased, the rows that had the id live are now marked deleted, every other row is
untouched; a second delete of the same id right after reports 404. -/
theorem DeleteSubscription_contract (now : Time) (db : Table) (idParam : String) (id : Int)
    (h : Atoi idParam = some id) :
    ((∀ r ∈ db, ¬ liveWithId id r) →
        (DeleteSubscription now db idParam).response =
            .JSON 404 (.error "Subscription not found") ∧
          (DeleteSubscription now db idParam).table = db) ∧
      ((∃ r ∈ db, liveWithId id r) →
        (DeleteSubscription now db idParam).response = .NoContent 204 ∧
          (DeleteSubscription now db idParam).table.length = db.length ∧
          (∀ r ∈ db, liveWithId id r →
            { r with DeletedAt := some now } ∈ (DeleteSubscription now db idParam).table) ∧
          (∀ r ∈ db, ¬ liveWithId id r → r ∈ (DeleteSubscription now db idParam).table) ∧
          (∀ r ∈ (DeleteSubscription now db idParam).table, ¬ liveWithId id r) ∧
          ∀ now2 : Time,
            (DeleteSubscription now2 (DeleteSubscription now db idParam).table idParam).response =
              .JSON 404 (.error "Subscription not found")) := by
  have htab : (DeleteSubscription now db idParam).table =
      db.map (fun r =>
        if selected [.idEq id] r then { r with DeletedAt := some now } else r) := by
    rw [DeleteSubscription_of_id now db idParam id h]
    split <;> rfl
  constructor
  · intro hnone
    have h0 : (db.filter (selected [.idEq id])).length = 0 :=
      (filter_length_zero_iff db _).2 (fun r hr hs => hnone r hr ((selected_idEq id r).1 hs))
    refine ⟨?_, ?_⟩
    · rw [DeleteSubscription_of_id now db idParam id h, if_pos h0]
    · rw [htab]
      exact map_softDelete_of_none now db id hnone
  · rintro ⟨r0, hr0, hl0⟩
    have h0 : ¬ ((db.filter (selected [.idEq id])).length = 0) := by
      intro hz
      exact (filter_length_zero_iff db _).1 hz r0 hr0 ((selected_idEq id r0).2 hl0)
    refine ⟨?_, ?_, ?_, ?_, ?_, ?_⟩
    · rw [DeleteSubscription_of_id now db idParam id h, if_neg h0]
    · rw [htab, List.length_map]
    · intro r hr hl
      rw [htab, List.mem_map]
      refine ⟨r, hr, ?_⟩
      simp only [(selected_idEq id r).2 hl, if_true]
    · intro r hr hl
      rw [htab, List.mem_map]
      refine ⟨r, hr, ?_⟩
      have hn : ¬ (selected [.idEq id] r = true) := fun hs => hl ((selected_idEq id r).1 hs)
      simp only [hn, if_false, Bool.false_eq_true]
    · rw [htab]
      exact softDeleted_not_live now db id
    · intro now2
      have hnone : ∀ r ∈ (DeleteSubscription now db idParam).table, ¬ liveWithId id r := by
        rw [htab]
        exact softDeleted_not_live now db id
      have hz : (((DeleteSubscription now db idParam).table).filter
          (selected [.idEq id])).length = 0 :=
        (filter_length_zero_iff _ _).2 (fun r hr hs => hnone r hr ((selected_idEq id r).1 hs))
      rw [DeleteSubscription_of_id now2 _ idParam id h, if_pos hz]

/-- C8 on the example table: deleting id 2 answers 204, deleting it again answers 404,
and deleting the absent id 7 answers 404. -/
theorem DeleteSubscription_contract_example :
    Atoi "2" = some 2 ∧
      (DeleteSubscription sampleNow exampleTable "2").response = .NoContent 204 ∧
      (DeleteSubscription sampleNow exampleTable "2").table.length = 3 ∧
      (DeleteSubscription sampleNow (DeleteSubscription sampleNow exampleTable "2").table
        "2").response = .JSON 404 (.error "Subscription not found") ∧
      (DeleteSubscription sampleNow exampleTable "7").response =
        .JSON 404 (.error "Subscription not found") := by
  have h2 := (DeleteSubscription_contract sampleNow exampleTable "2" 2 (by decide)).2 (by decide)
  have h7 := (DeleteSubscription_contract sampleNow exampleTable "7" 7 (by decide)).1 (by decide)
  exact ⟨by decide, h2.1, h2.2.1, h2.2.2.2.2.2 sampleNow, h7.1⟩

/-- C5. `CreateSubscription` does not check the price: for every bound request it calls
`db.Create` with the derived record and never answers with a JSON error; with price 0 or
-5 the insert is refused by the `check:price > 0` constraint and `log.Fatal` ends the
process. -/
theorem CreateSubscription_price_unchecked :
    (∀ (now : Time) (db : Table) (s : Subscription),
        (CreateSubscription now db (.ok s)).calls = [.Create (derivedRecord s)] ∧
          ∀ (code : Nat) (body : Body),
            (CreateSubscription now db (.ok s)).response ≠ .JSON code body) ∧
      CreateSubscription sampleNow exampleTable
          (.ok (createRequest "Netflix" 0 sampleUser "01-2024")) =
        ⟨.Fatal, [.Create (derivedRecord (createRequest "Netflix" 0 sampleUser "01-2024"))],
          exampleTable⟩ ∧
      CreateSubscription sampleNow exampleTable
          (.ok (createRequest "Netflix" (-5) sampleUser "01-2024")) =
        ⟨.Fatal, [.Create (derivedRecord (createRequest "Netflix" (-5) sampleUser "01-2024"))],
          exampleTable⟩ := by
  refine ⟨?_, by decide, by decide⟩
  intro now db s
  refine ⟨CreateSubscription_calls now db s, ?_⟩
  intro code body
  unfold CreateSubscription
  simp only
  split <;> exact fun h => Response.noConfusion h

/-- C6. A sum request whose start date is not `MM-YYYY` (here `2024-01`) is not refused:
the parse error is dropped, the sum query runs with the zero time as lower bound and the
handler answers 200 with a total.  Only an empty date is answered with 400. -/
theorem CalculateSubscriptionsSum_malformed_date :
    validMonthYear malformedFilter.StartDate = false ∧
      CalculateSubscriptionsSum exampleTable (.ok malformedFilter) =
        ⟨.JSON 200 (.total 350 "RUB" "2024-01 - 12-2024" "" ""),
          [.ScanTotal [.createdBetweenNotDeleted Time.zero ⟨2024, 12, 1, 0, 0, 0, 0⟩]],
          exampleTable⟩ ∧
      CalculateSubscriptionsSum exampleTable
          (.ok { malformedFilter with StartDate := "" }) =
        ⟨.JSON 400 (.error "Необходимо указать период (start_date и end_date)"), [],
          exampleTable⟩ := by
  refine ⟨by decide, by decide, by decide⟩

/-- C7, counterexample: a successful update of row 1 with start `01-2023` and a client
end `07-2030` writes `ended` equal to `created_at` (January 2023, not January 2024) and
`end_time` as the client sent it (`07-2030`, not the rendering of `ended`). -/
theorem UpdateSubscription_end_not_derived :
    validMonthYear sampleUpdate.StartDate = true ∧
      (UpdateSubscription sampleNow exampleTable "1" (.ok sampleUpdate)).response =
        .JSON 200 (.status "success") ∧
      ∃ fields,
        (UpdateSubscription sampleNow exampleTable "1" (.ok sampleUpdate)).calls =
          [.Updates [.idEq 1] fields] ∧
        fields.created_at = ⟨2023, 1, 1, 0, 0, 0, 0⟩ ∧
        fields.ended = ⟨2023, 1, 1, 0, 0, 0, 0⟩ ∧
        fields.end_time = "07-2030" ∧
        fields.ended ≠ fields.created_at.AddDate 1 0 0 ∧
        fields.end_time ≠ fields.ended.Format := by
  refine ⟨by decide, by decide, updateFields sampleUpdate, by decide, by decide, by decide,
    by decide, by decide, by decide⟩

/-- C7, amended. After a successful `UpdateSubscription` with a valid `MM-YYYY` start
date, the columns written have `created_at` the first instant of the start month,
`start_date` the request's start date and `end_time` the request's `end_time`, unchanged
(it is not derived from the start date). -/
theorem UpdateSubscription_written_fields (now : Time) (db : Table) (id : String)
    (req : UpdateRequest) (h : validMonthYear req.StartDate = true)
    (hok : (UpdateSubscription now db id (.ok req)).response = .JSON 200 (.status "success")) :
    ∃ subId fields, Atoi id = some subId ∧
      (UpdateSubscription now db id (.ok req)).calls = [.Updates [.idEq subId] fields] ∧
      fields.created_at = firstInstant (yearOf req.StartDate) (monthOf req.StartDate) ∧
      fields.start_date = req.StartDate ∧
      fields.end_time = req.EndTime := by
  obtain ⟨subId, ha, hc⟩ := UpdateSubscription_calls now db id req hok
  refine ⟨subId, updateFields req, ha, hc, ?_, rfl, rfl⟩
  simp only [updateFields, UpdateRequest.GetStartDate, Parse_of_valid _ h, dropErr]

/-- C7, amended, on the example table: row 1 updated with start `01-2023` and end
`07-2030`. -/
theorem UpdateSubscription_written_fields_example :
    validMonthYear sampleUpdate.StartDate = true ∧
      (UpdateSubscription sampleNow exampleTable "1" (.ok sampleUpdate)).response =
        .JSON 200 (.status "success") ∧
      ∃ subId fields, Atoi "1" = some subId ∧
        (UpdateSubscription sampleNow exampleTable "1" (.ok sampleUpdate)).calls =
          [.Updates [.idEq subId] fields] ∧
        fields.created_at = ⟨2023, 1, 1, 0, 0, 0, 0⟩ ∧
        fields.start_date = "01-2023" ∧
        fields.end_time = "07-2030" := by
  refine ⟨by decide, by decide, ?_⟩
  obtain ⟨subId, fields, h1, h2, h3, h4, h5⟩ :=
    UpdateSubscription_written_fields sampleNow exampleTable "1" sampleUpdate (by decide)
      (by decide)
  exact ⟨subId, fields, h1, h2, h3.trans (by decide), h4, h5⟩

/-- C9. `ReadSubscription` never answers 404: `First` reports an absent row as an error,
so an absent id (empty table, id 1) and a soft-deleted row (id 2 after its delete) are
both answered with 500 "database error"; a live row is rendered. -/
theorem ReadSubscription_absent_is_500 :
    (∀ (db : Table) (id : String) (body : Body),
        (ReadSubscription db id).response ≠ .JSON 404 body) ∧
      ReadSubscription [] "1" =
        ⟨.JSON 500 (.error "Ошибка базы данных"), [.First [.idEq 1]], []⟩ ∧
      (ReadSubscription (DeleteSubscription sampleNow exampleTable "2").table "2").response =
        .JSON 500 (.error "Ошибка базы данных") ∧
      (∃ sub, (ReadSubscription exampleTable "2").response = .Render 200 "subscription" sub ∧
        sub.ID = 2 ∧ sub.ServiceName = "Spotify") := by
  refine ⟨ReadSubscription_never_404, by decide, by decide, ?_⟩
  exact ⟨(dbFirst exampleTable [.idEq 2]).2, by decide, by decide, by decide⟩

/-- C10. A create request whose start date is not `MM-YYYY` (here `13-2024`) is not
refused: the parse error is dropped, `db.Create` is called with `CreatedAt` the zero time
and `EndTime` `01-0002`, the row is stored and the handler redirects. -/
theorem CreateSubscription_invalid_date_stored :
    validMonthYear (createRequest "Netflix" 100 sampleUser "13-2024").StartDate = false ∧
      CreateSubscription sampleNow []
          (.ok (createRequest "Netflix" 100 sampleUser "13-2024")) =
        ⟨.Redirect 302 "/",
          [.Create ⟨0, "Netflix", 100, sampleUser, "13-2024", "01-0002",
            ⟨2, 1, 1, 0, 0, 0, 0⟩, Time.zero, none, Time.zero⟩],
          [⟨1, "Netflix", 100, sampleUser, "13-2024", "01-0002",
            ⟨2, 1, 1, 0, 0, 0, 0⟩, sampleNow, none, sampleNow⟩]⟩ := by
  refine ⟨by decide, by decide⟩

end Subscriptions
